import Mathlib

/-!
Verification of the asset-decoding layer of OpenTESArena
(`src/OpenTESArena/src/Assets/MiscAssets.cpp`).

The C++ routines are shallowly embedded as Lean functions:
text files are lists of lines (each line a list of characters, as produced
by `std::getline`, so a line never contains a line feed but may end with a
carriage return), byte buffers are lists of naturals, and fallible code
(out-of-range `.at` accesses, thrown `std::runtime_error`s, undefined
behaviour) is modelled with `Option`/`Except`, where `none`/`.error`
means the C++ run raises an exception or hits undefined behaviour.
-/

namespace MiscAssets

/-! ## Character class parsing: allowed armors (parseClasses, allowedArmors lambda) -/

/-- Armor materials, from `../Items/ArmorMaterialType.h`. -/
inductive ArmorMaterialType
  | Leather
  | Chain
  | Plate
deriving DecidableEq, Repr

/-- The `allowedArmors` lambda in `MiscAssets::parseClasses`: decodes the
one-digit allowed-armor code of a class; an unrecognized code throws. -/
def allowedArmors (value : Nat) : Option (List ArmorMaterialType) :=
  if value = 0 then some [ArmorMaterialType.Leather, ArmorMaterialType.Chain, ArmorMaterialType.Plate]
  else if value = 1 then some [ArmorMaterialType.Leather, ArmorMaterialType.Chain]
  else if value = 2 then some [ArmorMaterialType.Leather]
  else if value = 3 then some []
  else none

/-! ## Character class parsing: lockpicking multiplier (parseClasses, lockpicking lambda)

The C++ computes `static_cast<double>(200 / divisor) / 100.0` where
`divisor` is an unsigned byte and `200 / divisor` is integer division.
The real-valued result is modelled as a rational number; division by a
zero divisor is undefined behaviour, modelled as `none`. -/

/-- The `lockpicking` lambda in `MiscAssets::parseClasses`. -/
def lockpickingMultiplier (divisor : Nat) : Option ℚ :=
  if divisor = 0 then none
  else some (((200 / divisor : ℕ) : ℚ) / 100)

/-! ## QUESTION.TXT category derivation (parseQuestionTxt, getCategory lambda) -/

/-- Class categories, from `../Entities/CharacterClassCategoryName.h`. -/
inductive CharacterClassCategoryName
  | Mage
  | Thief
  | Warrior
deriving DecidableEq, Repr

/-- The two ways the `getCategory` lambda can throw: `std::out_of_range`
from `choice.at(...)`, or the explicit bad-category `std::runtime_error`. -/
inductive QuestionTxtError
  | outOfRange
  | badCategory
deriving DecidableEq, Repr

/-- Value of `std::string::npos` for a 64-bit `size_t`. -/
def npos : Nat := 2 ^ 64 - 1

/-- `std::string::find` for a pattern string: index of the first occurrence
of `pat` in `l`, or `npos` when there is none. -/
def strFind (l pat : List Char) : Nat :=
  match (List.range l.length).find? (fun i => decide ((l.drop i).take pat.length = pat)) with
  | some i => i
  | none => npos

/-- The `getCategory` lambda in `MiscAssets::parseQuestionTxt`:
examines `choice.at(choice.find("(5") + 2)`, where the sum wraps around
modulo 2^64 because `find` returns the unsigned `npos` on a miss. -/
def getCategory (choice : List Char) : Except QuestionTxtError CharacterClassCategoryName :=
  let pos := strFind choice ['(', '5']
  let idx := (pos + 2) % 2 ^ 64
  match choice[idx]? with
  | none => Except.error QuestionTxtError.outOfRange
  | some ch =>
    if ch = 'l' then Except.ok CharacterClassCategoryName.Mage
    else if ch = 'c' then Except.ok CharacterClassCategoryName.Thief
    else if ch = 'v' then Except.ok CharacterClassCategoryName.Warrior
    else Except.error QuestionTxtError.badCategory

/-- Classification of a single (optional) tag character, used to state what
`getCategory` does once an examined index is fixed. -/
def categoryOfChar (c : Option Char) : Except QuestionTxtError CharacterClassCategoryName :=
  match c with
  | none => Except.error QuestionTxtError.outOfRange
  | some ch =>
    if ch = 'l' then Except.ok CharacterClassCategoryName.Mage
    else if ch = 'c' then Except.ok CharacterClassCategoryName.Thief
    else if ch = 'v' then Except.ok CharacterClassCategoryName.Warrior
    else Except.error QuestionTxtError.badCategory

/-! ## QUESTION.TXT line loop (parseQuestionTxt) -/

/-- ASCII letter test (`std::isalpha` in the C locale). -/
def isAsciiAlpha (ch : Char) : Bool :=
  ('a' ≤ ch && ch ≤ 'z') || ('A' ≤ ch && ch ≤ 'Z')

/-- ASCII digit test (`std::isdigit` in the C locale). -/
def isAsciiDigit (ch : Char) : Bool :=
  '0' ≤ ch && ch ≤ '9'

/-- The parser's mode enum (`Mode` in parseQuestionTxt). -/
inductive QuizMode
  | description
  | choiceA
  | choiceB
  | choiceC
deriving DecidableEq, Repr

/-- One creation quiz question: description plus three classified choices. -/
structure CharacterQuestion where
  d : List Char
  a : List Char × CharacterClassCategoryName
  b : List Char × CharacterClassCategoryName
  c : List Char × CharacterClassCategoryName
deriving DecidableEq, Repr

/-- The `addQuestion` lambda: classify the three choices; any category
failure propagates as an exception. -/
def mkQuestion (d a b c : List Char) : Option CharacterQuestion :=
  match getCategory a, getCategory b, getCategory c with
  | Except.ok ca, Except.ok cb, Except.ok cc => some ⟨d, (a, ca), (b, cb), (c, cc)⟩
  | _, _, _ => none

/-- Loop state of parseQuestionTxt. -/
structure QuizState where
  mode : QuizMode
  d : List Char
  a : List Char
  b : List Char
  c : List Char
  questions : List CharacterQuestion
deriving DecidableEq, Repr

/-- One iteration of the parseQuestionTxt loop: mode switching on a
leading letter, flushing on a leading digit, then appending the line plus
a line feed onto the accumulator of the (possibly new) mode.  An empty
line makes `line.at(0)` throw. -/
def quizStep (st : QuizState) (line : List Char) : Option QuizState :=
  match line with
  | [] => none
  | ch :: _ =>
    let st1 : Option QuizState :=
      if isAsciiAlpha ch then
        if ch = 'a' then some { st with mode := QuizMode.choiceA }
        else if ch = 'b' then some { st with mode := QuizMode.choiceB }
        else if ch = 'c' then some { st with mode := QuizMode.choiceC }
        else some st
      else if isAsciiDigit ch then
        if st.mode ≠ QuizMode.description then
          match mkQuestion st.d st.a st.b st.c with
          | none => none
          | some q =>
            some { mode := QuizMode.description, d := [], a := [], b := [], c := [],
                   questions := st.questions ++ [q] }
        else
          some { st with mode := QuizMode.description }
      else
        some st
    st1.map fun st2 =>
      let ln := line ++ ['\n']
      match st2.mode with
      | QuizMode.description => { st2 with d := st2.d ++ ln }
      | QuizMode.choiceA => { st2 with a := st2.a ++ ln }
      | QuizMode.choiceB => { st2 with b := st2.b ++ ln }
      | QuizMode.choiceC => { st2 with c := st2.c ++ ln }

/-- The parseQuestionTxt line loop. -/
def quizFold : List (List Char) → QuizState → Option QuizState
  | [], st => some st
  | line :: rest, st =>
    match quizStep st line with
    | none => none
    | some st2 => quizFold rest st2

/-- Initial state of the parseQuestionTxt loop. -/
def initQuizState : QuizState :=
  ⟨QuizMode.description, [], [], [], [], []⟩

/-- `MiscAssets::parseQuestionTxt` on a list of lines: run the loop, then
add the last question object from the data collected by the final lines
(the final flush after the loop). -/
def parseQuestionTxt (lines : List (List Char)) : Option (List CharacterQuestion) :=
  match quizFold lines initQuizState with
  | none => none
  | some st =>
    match mkQuestion st.d st.a st.b st.c with
    | none => none
    | some q => some (st.questions ++ [q])

/-! ## TEMPLATE.DAT parsing (parseTemplateDat) -/

/-- Modelled from the spec: `String::replace(value, a, b)` from the
Utilities/String helper (not under src/) replaces every occurrence of a
character, as used for the CR-to-LF normalization of values. -/
def replaceChar (l : List Char) (cf ct : Char) : List Char :=
  l.map fun c => if c = cf then ct else c

/-- Modelled from the spec: `String::trimLines` from the Utilities/String
helper (not under src/) removes carriage-return and line-feed characters. -/
def trimLines (l : List Char) : List Char :=
  l.filter fun c => decide (c ≠ '\r') && decide (c ≠ '\n')

/-- Modelled from the spec: `String::trim` from the Utilities/String
helper (not under src/) removes whitespace characters. -/
def trimWhitespace (l : List Char) : List Char :=
  l.filter fun c =>
    decide (c ≠ ' ') && decide (c ≠ '\t') && decide (c ≠ '\r') && decide (c ≠ '\n')

/-- Strip every trailing line feed (the pop-back while-loop in
parseTemplateDat). -/
def stripTrailingNewlines (l : List Char) : List Char :=
  (l.reverse.dropWhile fun c => decide (c = '\n')).reverse

/-- Strip a single trailing ampersand if present (the final pop-back in
parseTemplateDat). -/
def stripTrailingAmp (l : List Char) : List Char :=
  if l.getLast? = some '&' then l.dropLast else l

/-- The full value cleanup of parseTemplateDat: CR to LF, strip trailing
line feeds, strip one trailing ampersand. -/
def cleanValue (raw : List Char) : List Char :=
  stripTrailingAmp (stripTrailingNewlines (replaceChar raw '\r' '\n'))

/-- Whether the association table already holds a key (`map::find`). -/
def hasKey (t : List (List Char × List Char)) (k : List Char) : Bool :=
  t.any fun kv => decide (kv.1 = k)

/-- Loop state of parseTemplateDat. -/
structure TemplateState where
  key : List Char
  value : List Char
  table : List (List Char × List Char)
deriving DecidableEq, Repr

/-- One iteration of the parseTemplateDat loop: on a line starting with
'#', insert the previous key/value pair (first occurrence wins) and start
a new key; otherwise append the line to the current value.  An empty line
makes `line.at(0)` throw. -/
def templateStep (st : TemplateState) (line : List Char) : Option TemplateState :=
  match line with
  | [] => none
  | ch :: _ =>
    if ch = '#' then
      let table :=
        if hasKey st.table st.key then st.table
        else st.table ++ [(st.key, cleanValue st.value)]
      some { key := trimWhitespace (trimLines line), value := [], table := table }
    else
      some { st with value := st.value ++ line }

/-- The parseTemplateDat line loop. -/
def templateFold : List (List Char) → TemplateState → Option TemplateState
  | [], st => some st
  | line :: rest, st =>
    match templateStep st line with
    | none => none
    | some st2 => templateFold rest st2

/-- `MiscAssets::parseTemplateDat` on a list of lines: run the loop, then
erase the one empty-key entry added at the start. -/
def parseTemplateDat (lines : List (List Char)) : Option (List (List Char × List Char)) :=
  (templateFold lines ⟨[], [], []⟩).map fun st =>
    st.table.filter fun kv => decide (kv.1 ≠ [])

/-! ## DUNGEON.TXT parsing (parseDungeonTxt) -/

/-- Remove the first occurrence of a character (the title's
carriage-return removal via find and replace-with-nothing). -/
def removeFirst (l : List Char) (c : Char) : List Char :=
  match l with
  | [] => []
  | x :: xs => if x = c then xs else x :: removeFirst xs c

/-- Replace the first occurrence of a character (the description's
carriage-return-to-line-feed replacement via find and replace). -/
def replaceFirst (l : List Char) (cf ct : Char) : List Char :=
  match l with
  | [] => []
  | x :: xs => if x = cf then ct :: xs else x :: replaceFirst xs cf ct

/-- Loop state of parseDungeonTxt. -/
structure DungeonState where
  title : List Char
  description : List Char
  dungeons : List (List Char × List Char)
deriving DecidableEq, Repr

/-- One iteration of the parseDungeonTxt loop.  On a '#' line the pair is
pushed (after trimming a trailing line feed from the description;
`description.back()` on an empty description is undefined behaviour,
modelled as `none`); the first line after a push becomes the next title;
other lines extend the description.  An empty line makes `line.at(0)`
throw. -/
def dungeonStep (st : DungeonState) (line : List Char) : Option DungeonState :=
  match line with
  | [] => none
  | ch :: _ =>
    if ch = '#' then
      match st.description.getLast? with
      | none => none
      | some last =>
        let description :=
          if last = '\n' then st.description.dropLast else st.description
        some { title := [], description := [],
               dungeons := st.dungeons ++ [(st.title, description)] }
    else if st.title = [] then
      some { st with title := removeFirst line '\r' }
    else
      some { st with description := replaceFirst (st.description ++ line) '\r' '\n' }

/-- The parseDungeonTxt line loop. -/
def dungeonFold : List (List Char) → DungeonState → Option DungeonState
  | [], st => some st
  | line :: rest, st =>
    match dungeonStep st line with
    | none => none
    | some st2 => dungeonFold rest st2

/-- `MiscAssets::parseDungeonTxt` on a list of lines.  There is no flush
after the loop: a pair is pushed only when a '#' line is seen. -/
def parseDungeonTxt (lines : List (List Char)) : Option (List (List Char × List Char)) :=
  (dungeonFold lines ⟨[], [], []⟩).map fun st => st.dungeons

/-! ## SPELLMKR.TXT parsing (parseSpellMakerDescriptions) -/

/-- A digit-prefix reading of `std::stoi`: parse the leading run of
decimal digits; no leading digit means `std::stoi` throws.  (Sign and
whitespace prefixes, which `std::stoi` would accept, are not modelled;
for this format they would in any case end in a thrown exception, via
`array::at` on a negative index.) -/
def stoiNat (l : List Char) : Option Nat :=
  let ds := l.takeWhile isAsciiDigit
  if ds = [] then none
  else some (ds.foldl (fun acc c => acc * 10 + (c.toNat - '0'.toNat)) 0)

/-- Flush the in-progress spell-maker block, writing through
`array::at(index)` on the 43-slot array; an index of 43 or more throws. -/
def smFlush (st : Option (Nat × List Char)) (acc : List (Nat × List Char)) :
    Option (List (Nat × List Char)) :=
  match st with
  | none => some acc
  | some (i, s) => if i < 43 then some (acc ++ [(i, s)]) else none

/-- The parseSpellMakerDescriptions line loop.  Empty lines are skipped;
a '#' line flushes the current block and, if the line has at least three
characters, starts a new block at the parsed index, otherwise the loop
breaks (returning what was collected, the in-progress state dropped);
text lines append to the current block (`state->str` on a null state is
undefined behaviour, modelled as `none`).  The table is recorded as the
sequence of index/text writes. -/
def spellMakerLoop :
    List (List Char) → Option (Nat × List Char) → List (Nat × List Char) →
      Option (List (Nat × List Char))
  | [], _, acc => some acc
  | line :: rest, st, acc =>
    if line = [] then spellMakerLoop rest st acc
    else if line.head? = some '#' then
      match smFlush st acc with
      | none => none
      | some acc2 =>
        if 3 ≤ line.length then
          match stoiNat ((line.drop 1).take 2) with
          | none => none
          | some idx => spellMakerLoop rest (some (idx, [])) acc2
        else
          some acc2
    else
      match st with
      | none => none
      | some (i, s) => spellMakerLoop rest (some (i, s ++ line)) acc

/-- `MiscAssets::parseSpellMakerDescriptions` on a list of lines.  Note
that the loop performs no flush when the input is exhausted. -/
def parseSpellMakerDescriptions (lines : List (List Char)) :
    Option (List (Nat × List Char)) :=
  spellMakerLoop lines none []

/-! ## NAMECHNK.DAT chunked binary parsing (parseNameChunks)

The byte buffer is a list of naturals.  `Bytes::getLE16` and the
null-terminated string reads are lenient past the end of the buffer
(out-of-buffer bytes read as zero), matching the fact that the C++ reads
raw memory there; the claims below concern only the cursor arithmetic. -/

/-- Little-endian 16-bit read (`Bytes::getLE16`). -/
def leU16 (buf : List Nat) (o : Nat) : Nat :=
  buf.getD o 0 + 256 * buf.getD (o + 1) 0

/-- Read `count` consecutive null-terminated strings starting at `pos`. -/
def readNameStrings (buf : List Nat) : Nat → Nat → List (List Nat)
  | 0, _ => []
  | n + 1, pos =>
    let s := (buf.drop pos).takeWhile fun b => decide (b ≠ 0)
    s :: readNameStrings buf n (pos + s.length + 1)

/-- Decode the record starting at `offset`: its 3-byte header holds a
16-bit length and an 8-bit string count, and the strings start 3 bytes
into the record. -/
def readNameRecord (buf : List Nat) (offset : Nat) : List (List Nat) :=
  readNameStrings buf (buf.getD (offset + 2) 0) (offset + 3)

/-- The `MiscAssets::parseNameChunks` while-loop with explicit fuel: each
iteration decodes the record at the cursor and advances the cursor by the
header's declared length; `none` means the loop is still running after
`fuel` iterations. -/
def parseNameChunksAux (buf : List Nat) :
    Nat → Nat → List (List (List Nat)) → Option (List (List (List Nat)))
  | 0, offset, acc => if offset < buf.length then none else some acc
  | fuel + 1, offset, acc =>
    if offset < buf.length then
      parseNameChunksAux buf fuel (offset + leU16 buf offset) (acc ++ [readNameRecord buf offset])
    else
      some acc

/-- `MiscAssets::parseNameChunks` on an in-memory buffer, given
`buf.length` iterations of fuel (enough for any terminating run, since a
terminating run advances the cursor by at least one each iteration). -/
def parseNameChunks (buf : List Nat) : Option (List (List (List Nat))) :=
  parseNameChunksAux buf buf.length 0 []

/-- Termination of the parseNameChunks loop on a given buffer: some finite
number of iterations brings the cursor to (or past) the buffer end. -/
def NameChunksTerminates (buf : List Nat) : Prop :=
  ∃ fuel, (parseNameChunksAux buf fuel 0 []).isSome

/-! ## Name synthesis (generateNpcName)

The external random generator is modelled as a stream `rng : Nat → Nat`
together with a cursor `k` giving the position of the next draw, so the
number of draws a computation consumes is the difference of cursors.
Results are `Option` values: `none` models a thrown exception (an
out-of-range `.at` or the modulo-by-zero of an empty chunk list). -/

/-- Discriminated union for name composition rules (the `NameRule` struct
in the anonymous namespace of MiscAssets.cpp). -/
inductive NameRule
  | index (i : Nat)
  | str (s : String)
  | indexChance (i chance : Nat)
  | indexStringChance (i : Nat) (s : String) (chance : Nat)
deriving DecidableEq, Repr

/-- The 48-entry rule table (`NameRules` in MiscAssets.cpp), indexed by
race times two plus gender. -/
def NameRules : List (List NameRule) :=
  [ [NameRule.index 0, NameRule.index 1, NameRule.str " ", NameRule.index 4, NameRule.index 5],
    [NameRule.index 2, NameRule.index 3, NameRule.str " ", NameRule.index 4, NameRule.index 5],
    [NameRule.index 6, NameRule.index 7, NameRule.index 8, NameRule.indexChance 9 75],
    [NameRule.index 6, NameRule.index 7, NameRule.index 8, NameRule.indexChance 9 75, NameRule.index 10],
    [NameRule.index 11, NameRule.index 12, NameRule.str " ", NameRule.index 15, NameRule.index 16, NameRule.str "sen"],
    [NameRule.index 13, NameRule.index 14, NameRule.str " ", NameRule.index 15, NameRule.index 16, NameRule.str "sen"],
    [NameRule.index 17, NameRule.index 18, NameRule.str " ", NameRule.index 21, NameRule.index 22],
    [NameRule.index 19, NameRule.index 20, NameRule.str " ", NameRule.index 21, NameRule.index 22],
    [NameRule.index 23, NameRule.index 24, NameRule.str " ", NameRule.index 27, NameRule.index 28],
    [NameRule.index 25, NameRule.index 26, NameRule.str " ", NameRule.index 27, NameRule.index 28],
    [NameRule.index 29, NameRule.index 30, NameRule.str " ", NameRule.index 33, NameRule.index 34],
    [NameRule.index 31, NameRule.index 32, NameRule.str " ", NameRule.index 33, NameRule.index 34],
    [NameRule.index 35, NameRule.index 36, NameRule.str " ", NameRule.index 39, NameRule.index 40],
    [NameRule.index 37, NameRule.index 38, NameRule.str " ", NameRule.index 39, NameRule.index 40],
    [NameRule.index 41, NameRule.index 42, NameRule.str " ", NameRule.index 45, NameRule.index 46],
    [NameRule.index 43, NameRule.index 44, NameRule.str " ", NameRule.index 45, NameRule.index 46],
    [NameRule.index 47, NameRule.indexChance 48 75, NameRule.index 49],
    [NameRule.index 47, NameRule.indexChance 48 75, NameRule.index 49],
    [NameRule.index 47, NameRule.indexChance 48 75, NameRule.index 49],
    [NameRule.index 47, NameRule.indexChance 48 75, NameRule.index 49],
    [NameRule.index 47, NameRule.indexChance 48 75, NameRule.index 49],
    [NameRule.index 47, NameRule.indexChance 48 75, NameRule.index 49],
    [NameRule.index 47, NameRule.indexChance 48 75, NameRule.index 49],
    [NameRule.index 47, NameRule.indexChance 48 75, NameRule.index 49],
    [NameRule.index 47, NameRule.indexChance 48 75, NameRule.index 49],
    [NameRule.index 47, NameRule.indexChance 48 75, NameRule.index 49],
    [NameRule.index 47, NameRule.indexChance 48 75, NameRule.index 49],
    [NameRule.index 47, NameRule.indexChance 48 75, NameRule.index 49],
    [NameRule.index 47, NameRule.indexChance 48 75, NameRule.index 49],
    [NameRule.index 47, NameRule.indexChance 48 75, NameRule.index 49],
    [NameRule.index 47, NameRule.indexChance 48 75, NameRule.index 49],
    [NameRule.index 47, NameRule.indexChance 48 75, NameRule.index 49],
    [NameRule.index 47, NameRule.indexChance 48 75, NameRule.index 49],
    [NameRule.index 47, NameRule.indexChance 48 75, NameRule.index 49],
    [NameRule.index 50, NameRule.indexChance 51 75, NameRule.index 52],
    [NameRule.index 50, NameRule.indexChance 51 75, NameRule.index 52],
    [NameRule.index 50, NameRule.indexChance 51 75, NameRule.index 52],
    [NameRule.index 50, NameRule.indexChance 51 75, NameRule.index 52],
    [NameRule.index 50, NameRule.indexChance 51 75, NameRule.index 52],
    [NameRule.index 50, NameRule.indexChance 51 75, NameRule.index 52],
    [NameRule.index 50, NameRule.indexChance 51 75, NameRule.index 52],
    [NameRule.index 50, NameRule.indexChance 51 75, NameRule.index 52],
    [NameRule.index 50, NameRule.index 52, NameRule.index 53],
    [NameRule.index 50, NameRule.index 52, NameRule.index 53],
    [NameRule.indexStringChance 54 " " 25, NameRule.index 55, NameRule.index 56, NameRule.index 57],
    [NameRule.indexStringChance 54 " " 25, NameRule.index 55, NameRule.index 56, NameRule.index 57],
    [NameRule.index 55, NameRule.index 56, NameRule.index 57],
    [NameRule.index 55, NameRule.index 56, NameRule.index 57] ]

/-- The rule-evaluation loop of `MiscAssets::generateNpcName`: walk the
rules in order, appending chunk samples and literals, drawing from the
generator for each chunk index and for each chance threshold.  Returns the
accumulated name together with the final draw cursor. -/
def runRules (chunks : List (List String)) (rng : Nat → Nat) :
    List NameRule → Nat → Option (String × Nat)
  | [], k => some ("", k)
  | NameRule.index i :: rest, k =>
    (chunks[i]?).bind fun cl =>
      (cl[rng k % cl.length]?).bind fun s =>
        (runRules chunks rng rest (k + 1)).map fun p => (s ++ p.1, p.2)
  | NameRule.str lit :: rest, k =>
    (runRules chunks rng rest k).map fun p => (lit ++ p.1, p.2)
  | NameRule.indexChance i c :: rest, k =>
    (chunks[i]?).bind fun cl =>
      if rng k % 100 ≤ c then
        (cl[rng (k + 1) % cl.length]?).bind fun s =>
          (runRules chunks rng rest (k + 2)).map fun p => (s ++ p.1, p.2)
      else
        runRules chunks rng rest (k + 1)
  | NameRule.indexStringChance i lit c :: rest, k =>
    (chunks[i]?).bind fun cl =>
      if rng k % 100 ≤ c then
        (cl[rng (k + 1) % cl.length]?).bind fun s =>
          (runRules chunks rng rest (k + 2)).map fun p => ((s ++ lit) ++ p.1, p.2)
      else
        runRules chunks rng rest (k + 1)

/-- `MiscAssets::generateNpcName`: look up the rule list for the
race/gender pair and evaluate it from draw position 0. -/
def generateNpcName (chunks : List (List String)) (raceID : Nat) (isMale : Bool)
    (rng : Nat → Nat) : Option (String × Nat) :=
  (NameRules[raceID * 2 + (if isMale then 0 else 1)]?).bind fun rules =>
    runRules chunks rng rules 0

/-- Draw count asserted by the claim: one draw per chunk reference for the
chunk index plus one extra draw per chance-gated rule, independent of the
threshold outcomes. -/
def claimedDrawCount : List NameRule → Nat
  | [] => 0
  | NameRule.index _ :: rest => 1 + claimedDrawCount rest
  | NameRule.str _ :: rest => claimedDrawCount rest
  | NameRule.indexChance _ _ :: rest => 2 + claimedDrawCount rest
  | NameRule.indexStringChance _ _ _ :: rest => 2 + claimedDrawCount rest

/-- Draw count actually consumed: one per plain reference; for a
chance-gated rule one for the threshold test, plus a second for the chunk
index only when the threshold draw succeeds. -/
def actualDrawCount (rng : Nat → Nat) : List NameRule → Nat → Nat
  | [], _ => 0
  | NameRule.index _ :: rest, k => 1 + actualDrawCount rng rest (k + 1)
  | NameRule.str _ :: rest, k => actualDrawCount rng rest k
  | NameRule.indexChance _ c :: rest, k =>
    if rng k % 100 ≤ c then 2 + actualDrawCount rng rest (k + 2)
    else 1 + actualDrawCount rng rest (k + 1)
  | NameRule.indexStringChance _ _ c :: rest, k =>
    if rng k % 100 ≤ c then 2 + actualDrawCount rng rest (k + 2)
    else 1 + actualDrawCount rng rest (k + 1)

/-! ## World map terrain (WorldMapTerrain::getFailSafeAt)

Modelled from the spec: the constants below stand for the ones declared in
the missing header MiscAssets.h — the terrain image is a fixed-size raw
indexed image (320 by 200 pixels, the W by H of the spec) and the pixel
codes form a small enumerated space with a sea sentinel, a first temperate
code used as the default, and mountain codes; the numeric values are
representative, the claims only use their distinctness.  The pixel buffer
is modelled as a function from linear index to pixel value. -/

/-- Width of the terrain image in pixels. -/
def terrainWidth : Int := 320

/-- Height of the terrain image in pixels. -/
def terrainHeight : Int := 200

/-- Number of pixels in the terrain image. -/
def pixelCount : Int := terrainWidth * terrainHeight

/-- The sea sentinel pixel code. -/
def SEA : Nat := 253

/-- The first temperate pixel code, the fail-safe default. -/
def TEMPERATE1 : Nat := 254

/-- A mountain pixel code. -/
def MOUNTAIN1 : Nat := 249

/-- The single conditional wraparound applied to the shifted linear index
in the `getTerrainAt` lambda. -/
def wrapIndex (i : Int) : Int :=
  if i < 0 then i + pixelCount
  else if pixelCount ≤ i then i - pixelCount
  else i

/-- The linear index of a coordinate, moved 12 pixels left before
wrapping. -/
def rawIndex (x y : Int) : Int :=
  x + y * terrainWidth - 12

/-- The `getTerrainAt` lambda of `WorldMapTerrain::getFailSafeAt`: shift
the index 12 pixels left with single wraparound, then read the pixel
through the bounds-checked `.at`. -/
def getTerrainAt (indices : Nat → Nat) (x y : Int) : Option Nat :=
  if 0 ≤ wrapIndex (rawIndex x y) ∧ wrapIndex (rawIndex x y) < pixelCount then
    some (indices (wrapIndex (rawIndex x y)).toNat)
  else none

/-- The in-range pixel read, total; equal to `getTerrainAt` whenever the
shifted index wraps into range. -/
def terrainPix (indices : Nat → Nat) (x y : Int) : Nat :=
  indices (wrapIndex (rawIndex x y)).toNat

/-- The fail-safe loop over the remaining distances: at each distance
check below, above, right and left, return the first non-sea pixel among
them, and after the last distance return the default temperate pixel. -/
def failSafeLoop (indices : Nat → Nat) (x y : Int) : List Int → Option Nat
  | [] => some TEMPERATE1
  | dist :: rest =>
    (getTerrainAt indices x (y + dist)).bind fun below =>
      (getTerrainAt indices x (y - dist)).bind fun above =>
        (getTerrainAt indices (x + dist) y).bind fun right =>
          (getTerrainAt indices (x - dist) y).bind fun left =>
            match [below, above, right, left].find? (fun p => decide (p ≠ SEA)) with
            | some p => some p
            | none => failSafeLoop indices x y rest

/-- The distances 1 to 199 walked by the fail-safe for-loop. -/
def failSafeDists : List Int :=
  (List.range' 1 199).map Int.ofNat

/-- `WorldMapTerrain::getFailSafeAt`: return the direct (shifted) pixel if
it is not sea, otherwise search the '+' pattern. -/
def getFailSafeAt (indices : Nat → Nat) (x y : Int) : Option Nat :=
  (getTerrainAt indices x y).bind fun direct =>
    if direct ≠ SEA then some direct
    else failSafeLoop indices x y failSafeDists

/-- The coordinates of the '+' pattern at one distance, in the order the
code checks them: below, above, right, left. -/
def plusOffsets (x y dist : Int) : List (Int × Int) :=
  [(x, y + dist), (x, y - dist), (x + dist, y), (x - dist, y)]

/-- The full fail-safe search order: the requested pixel, then the '+'
pattern at each distance 1 to 199. -/
def searchOrder (x y : Int) : List (Int × Int) :=
  (x, y) :: failSafeDists.flatMap (plusOffsets x y)

/-- The result described by the spec: the first non-sea pixel in search
order, or the default temperate classification. -/
def failSafeSpec (indices : Nat → Nat) (x y : Int) : Nat :=
  match (searchOrder x y).find? (fun c => decide (terrainPix indices c.1 c.2 ≠ SEA)) with
  | some c => terrainPix indices c.1 c.2
  | none => TEMPERATE1

/-! ## Concrete demonstration data used by witnesses -/

/-- Scenario pixel grid: sea everywhere except the shifted pixel of the
coordinate two rows above (100, 100), which is mountain. -/
def scenarioIndices : Nat → Nat :=
  fun i => if i = 31448 then MOUNTAIN1 else SEA

/-- Demonstration buffer of 10 bytes: header (length 10, count 2), two
null-terminated strings occupying 4 bytes, then 3 bytes of padding. -/
def nameChunkDemoBuf : List Nat := [10, 0, 2, 65, 0, 66, 0, 9, 9, 9]

/-- A minimal QUESTION.TXT: one question whose three choices carry the
"(5x)" category markers, with no trailing delimiter line. -/
def quizDemoLines : List (List Char) :=
  [['1'], ['a', '(', '5', 'l', ')'], ['b', '(', '5', 'c', ')'], ['c', '(', '5', 'v', ')']]

/-- The question decoded from `quizDemoLines`. -/
def quizDemoQuestion : CharacterQuestion :=
  ⟨['1', '\n'],
   (['a', '(', '5', 'l', ')', '\n'], CharacterClassCategoryName.Mage),
   (['b', '(', '5', 'c', ')', '\n'], CharacterClassCategoryName.Thief),
   (['c', '(', '5', 'v', ')', '\n'], CharacterClassCategoryName.Warrior)⟩

/-! ## Helper theorems -/

/-- The newline-stripped value never ends with a line feed. -/
theorem stripTrailingNewlines_getLast (l : List Char) :
    (stripTrailingNewlines l).getLast? ≠ some '\n' := by
  unfold stripTrailingNewlines
  rw [List.getLast?_reverse]
  generalize l.reverse = m
  induction m with
  | nil => simp
  | cons x xs ihm =>
    rw [List.dropWhile_cons]
    by_cases hx : x = '\n'
    · simpa [hx] using ihm
    · simp [hx]

/-- A list ending in `a` is its dropLast followed by `a`. -/
theorem eq_concat_of_getLast {l : List Char} {a : Char} (h : l.getLast? = some a) :
    l = l.dropLast ++ [a] := by
  have hne : l ≠ [] := by rintro rfl; simp at h
  have h2 : l.getLast hne = a := by
    have h3 := List.getLast?_eq_getLast l hne
    rw [h3] at h
    exact Option.some.inj h
  rw [← h2]
  exact (List.dropLast_append_getLast hne).symm

/-- How a cleaned template value can end badly: it ends with a line feed
only when the newline-stripped value ends in a line feed directly followed
by the stripped ampersand, and it ends with an ampersand only when the
newline-stripped value ends in two ampersands. -/
theorem cleanValue_last_cases (raw : List Char) :
    ((cleanValue raw).getLast? = some '\n' →
      ['\n', '&'] <:+ stripTrailingNewlines (replaceChar raw '\r' '\n')) ∧
    ((cleanValue raw).getLast? = some '&' →
      ['&', '&'] <:+ stripTrailingNewlines (replaceChar raw '\r' '\n')) := by
  set y := stripTrailingNewlines (replaceChar raw '\r' '\n') with hy
  have hclean : cleanValue raw = stripTrailingAmp y := rfl
  have hylast : y.getLast? ≠ some '\n' := stripTrailingNewlines_getLast _
  by_cases hamp : y.getLast? = some '&'
  · have hysplit : y = y.dropLast ++ ['&'] := eq_concat_of_getLast hamp
    have hv : cleanValue raw = y.dropLast := by
      rw [hclean]
      unfold stripTrailingAmp
      rw [if_pos hamp]
    constructor
    · intro hnl
      rw [hv] at hnl
      have hdl : y.dropLast = y.dropLast.dropLast ++ ['\n'] := eq_concat_of_getLast hnl
      refine ⟨y.dropLast.dropLast, ?_⟩
      rw [hysplit, hdl]
      simp
    · intro hnl
      rw [hv] at hnl
      have hdl : y.dropLast = y.dropLast.dropLast ++ ['&'] := eq_concat_of_getLast hnl
      refine ⟨y.dropLast.dropLast, ?_⟩
      rw [hysplit, hdl]
      simp
  · have hv : cleanValue raw = y := by
      rw [hclean]
      unfold stripTrailingAmp
      rw [if_neg hamp]
    constructor
    · intro hnl
      rw [hv] at hnl
      exact absurd hnl hylast
    · intro hnl
      rw [hv] at hnl
      exact absurd hnl hamp

/-- Every value held in the template-parser table is the image of the
value cleanup, an invariant of the line loop. -/
theorem templateFold_values (lines : List (List Char)) :
    ∀ (st stf : TemplateState), templateFold lines st = some stf →
      (∀ kv : List Char × List Char, kv ∈ st.table → ∃ raw, kv.2 = cleanValue raw) →
      ∀ kv : List Char × List Char, kv ∈ stf.table → ∃ raw, kv.2 = cleanValue raw := by
  induction lines with
  | nil =>
    intro st stf h hinv
    simp only [templateFold, Option.some.injEq] at h
    subst h
    exact hinv
  | cons line rest ih =>
    intro st stf h hinv
    simp only [templateFold] at h
    split at h
    · simp at h
    · rename_i st2 heq
      apply ih st2 stf h
      intro kv hkv
      cases line with
      | nil => simp [templateStep] at heq
      | cons ch tl =>
        simp only [templateStep] at heq
        by_cases hch : ch = '#'
        · rw [if_pos hch] at heq
          have h2 := Option.some.inj heq
          subst h2
          simp only at hkv
          by_cases hk : hasKey st.table st.key
          · rw [if_pos hk] at hkv
            exact hinv kv hkv
          · rw [if_neg hk] at hkv
            rcases List.mem_append.mp hkv with hmem | hmem
            · exact hinv kv hmem
            · have hkv2 := List.mem_singleton.mp hmem
              subst hkv2
              exact ⟨st.value, rfl⟩
        · rw [if_neg hch] at heq
          have h2 := Option.some.inj heq
          subst h2
          exact hinv kv hkv


/-- On the 3-byte buffer of zeros, the record header declares length 0, so
the cursor never moves and no amount of fuel finishes the loop. -/
theorem nameChunks_zero_header_stuck :
    ∀ fuel acc, parseNameChunksAux [0, 0, 0] fuel 0 acc = none := by
  intro fuel
  induction fuel with
  | zero => intro acc; rfl
  | succ n ih =>
    intro acc
    have hlen : (0 : Nat) < ([0, 0, 0] : List Nat).length := by decide
    have hle : leU16 [0, 0, 0] 0 = 0 := by decide
    simp only [parseNameChunksAux, if_pos hlen, hle]
    exact ih _

/-- Whenever every 16-bit header value inside the buffer is positive, the
cursor strictly advances, so `buf.length` iterations of fuel suffice. -/
theorem parseNameChunksAux_total (buf : List Nat)
    (hpos : ∀ o, o < buf.length → 0 < leU16 buf o) :
    ∀ fuel offset acc, buf.length - offset ≤ fuel →
      (parseNameChunksAux buf fuel offset acc).isSome := by
  intro fuel
  induction fuel with
  | zero =>
    intro offset acc h
    have hnlt : ¬ offset < buf.length := by omega
    simp [parseNameChunksAux, hnlt]
  | succ n ih =>
    intro offset acc h
    by_cases hc : offset < buf.length
    · have hstep := hpos offset hc
      simp only [parseNameChunksAux, if_pos hc]
      exact ih (offset + leU16 buf offset) _ (by omega)
    · simp [parseNameChunksAux, hc]

/-- A successful run of the rule loop ends with its draw cursor advanced
by exactly the actual draw count. -/
theorem runRules_drawCount (chunks : List (List String)) (rng : Nat → Nat) :
    ∀ (rules : List NameRule) (k : Nat) (s : String) (kf : Nat),
      runRules chunks rng rules k = some (s, kf) →
      kf = k + actualDrawCount rng rules k := by
  intro rules
  induction rules with
  | nil =>
    intro k s kf h
    simp only [runRules, Option.some.injEq, Prod.mk.injEq] at h
    obtain ⟨-, rfl⟩ := h
    simp [actualDrawCount]
  | cons r rest ih =>
    cases r with
    | index i =>
      intro k s kf h
      simp only [runRules, Option.bind_eq_some, Option.map_eq_some'] at h
      obtain ⟨cl, hcl, piece, hpiece, p, hrun, hp⟩ := h
      rw [Prod.mk.injEq] at hp
      obtain ⟨-, hkf⟩ := hp
      have hih := ih (k + 1) p.1 p.2 hrun
      simp only [actualDrawCount]
      omega
    | str lit =>
      intro k s kf h
      simp only [runRules, Option.map_eq_some'] at h
      obtain ⟨p, hrun, hp⟩ := h
      rw [Prod.mk.injEq] at hp
      obtain ⟨-, hkf⟩ := hp
      have hih := ih k p.1 p.2 hrun
      simp only [actualDrawCount]
      omega
    | indexChance i c =>
      intro k s kf h
      simp only [runRules] at h
      rw [Option.bind_eq_some] at h
      obtain ⟨cl, hcl, h⟩ := h
      by_cases hgate : rng k % 100 ≤ c
      · rw [if_pos hgate] at h
        simp only [Option.bind_eq_some, Option.map_eq_some'] at h
        obtain ⟨piece, hpiece, p, hrun, hp⟩ := h
        rw [Prod.mk.injEq] at hp
        obtain ⟨-, hkf⟩ := hp
        have hih := ih (k + 2) p.1 p.2 hrun
        simp only [actualDrawCount, if_pos hgate]
        omega
      · rw [if_neg hgate] at h
        have hih := ih (k + 1) s kf h
        simp only [actualDrawCount, if_neg hgate]
        omega
    | indexStringChance i lit c =>
      intro k s kf h
      simp only [runRules] at h
      rw [Option.bind_eq_some] at h
      obtain ⟨cl, hcl, h⟩ := h
      by_cases hgate : rng k % 100 ≤ c
      · rw [if_pos hgate] at h
        simp only [Option.bind_eq_some, Option.map_eq_some'] at h
        obtain ⟨piece, hpiece, p, hrun, hp⟩ := h
        rw [Prod.mk.injEq] at hp
        obtain ⟨-, hkf⟩ := hp
        have hih := ih (k + 2) p.1 p.2 hrun
        simp only [actualDrawCount, if_pos hgate]
        omega
      · rw [if_neg hgate] at h
        have hih := ih (k + 1) s kf h
        simp only [actualDrawCount, if_neg hgate]
        omega

/-- When the pattern does not occur, `strFind` returns `npos`. -/
theorem strFind_eq_npos (l pat : List Char)
    (h : ¬ ∃ i, i < l.length ∧ (l.drop i).take pat.length = pat) :
    strFind l pat = npos := by
  unfold strFind
  have hfind : (List.range l.length).find?
      (fun i => decide ((l.drop i).take pat.length = pat)) = none := by
    rw [List.find?_eq_none]
    intro i hi
    simp only [List.mem_range] at hi
    simp only [decide_eq_true_eq]
    intro hocc
    exact h ⟨i, hi, hocc⟩
  rw [hfind]

/-- The conditional wraparound lands in range whenever the raw index is
within one wrap of the pixel range. -/
theorem wrapIndex_bounds (i : Int) (h1 : -pixelCount ≤ i) (h2 : i < 2 * pixelCount) :
    0 ≤ wrapIndex i ∧ wrapIndex i < pixelCount := by
  have hpc : pixelCount = 64000 := by decide
  unfold wrapIndex
  rw [hpc] at h1 h2 ⊢
  split_ifs <;> omega

/-- `getTerrainAt` succeeds and agrees with the total pixel read whenever
the raw index is within one wrap of the pixel range. -/
theorem getTerrainAt_eq (indices : Nat → Nat) (x y : Int)
    (h1 : -pixelCount ≤ rawIndex x y) (h2 : rawIndex x y < 2 * pixelCount) :
    getTerrainAt indices x y = some (terrainPix indices x y) := by
  unfold getTerrainAt terrainPix
  rw [if_pos (wrapIndex_bounds _ h1 h2)]

/-- The four '+'-pattern reads at distance `d` from an in-bounds
coordinate all succeed. -/
theorem getTerrainAt_plus (indices : Nat → Nat) (x y d : Int)
    (hx1 : 0 ≤ x) (hx2 : x < 320) (hy1 : 0 ≤ y) (hy2 : y < 200)
    (hd1 : 0 ≤ d) (hd2 : d ≤ 199) :
    getTerrainAt indices x (y + d) = some (terrainPix indices x (y + d)) ∧
    getTerrainAt indices x (y - d) = some (terrainPix indices x (y - d)) ∧
    getTerrainAt indices (x + d) y = some (terrainPix indices (x + d) y) ∧
    getTerrainAt indices (x - d) y = some (terrainPix indices (x - d) y) := by
  refine ⟨?_, ?_, ?_, ?_⟩ <;>
    · apply getTerrainAt_eq <;>
        · simp only [rawIndex, pixelCount, terrainWidth, terrainHeight]
          omega

/-- The fail-safe loop over an in-bounds coordinate computes the first
non-sea pixel of the flattened '+'-pattern search, with the temperate
default after exhaustion. -/
theorem failSafeLoop_eq (indices : Nat → Nat) (x y : Int)
    (hx1 : 0 ≤ x) (hx2 : x < 320) (hy1 : 0 ≤ y) (hy2 : y < 200) :
    ∀ dists : List Int, (∀ d ∈ dists, 1 ≤ d ∧ d ≤ 199) →
      failSafeLoop indices x y dists =
        some (match (dists.flatMap (plusOffsets x y)).find?
                (fun c => decide (terrainPix indices c.1 c.2 ≠ SEA)) with
              | some c => terrainPix indices c.1 c.2
              | none => TEMPERATE1) := by
  intro dists
  induction dists with
  | nil => intro _; rfl
  | cons d rest ih =>
    intro hmem
    have hd := hmem d (List.mem_cons_self d rest)
    have hrest : ∀ e ∈ rest, 1 ≤ e ∧ e ≤ 199 :=
      fun e he => hmem e (List.mem_cons_of_mem d he)
    obtain ⟨hb, ha, hr, hl⟩ :=
      getTerrainAt_plus indices x y d hx1 hx2 hy1 hy2 (by omega) (by omega)
    have hmap : ([terrainPix indices x (y + d), terrainPix indices x (y - d),
        terrainPix indices (x + d) y, terrainPix indices (x - d) y] : List Nat) =
        (plusOffsets x y d).map (fun c => terrainPix indices c.1 c.2) := rfl
    simp only [failSafeLoop, hb, ha, hr, hl, Option.some_bind]
    rw [hmap, List.find?_map]
    have hbind : ((d :: rest).flatMap (plusOffsets x y)) =
        plusOffsets x y d ++ rest.flatMap (plusOffsets x y) := rfl
    rw [hbind, List.find?_append]
    cases hfind : (plusOffsets x y d).find?
        (fun c => decide (terrainPix indices c.1 c.2 ≠ SEA)) with
    | some c =>
      have hcomp : (plusOffsets x y d).find?
          ((fun p => decide (p ≠ SEA)) ∘ fun c => terrainPix indices c.1 c.2) = some c :=
        hfind
      rw [hcomp]
      rfl
    | none =>
      have hcomp : (plusOffsets x y d).find?
          ((fun p => decide (p ≠ SEA)) ∘ fun c => terrainPix indices c.1 c.2) = none :=
        hfind
      rw [hcomp]
      simpa using ih hrest

end MiscAssets

namespace Claims

open MiscAssets

/-- C6: for every in-bounds coordinate, getFailSafeAt returns the pixel at
the index shifted 12 left with wraparound when that pixel is not the sea
sentinel, and otherwise the first non-sea pixel scanning below, above,
right, left at each radius 1 to 199, falling back to the default temperate
classification when every candidate is sea. -/
theorem c6_getFailSafeAt (indices : Nat → Nat) (x y : Int)
    (hx1 : 0 ≤ x) (hx2 : x < terrainWidth) (hy1 : 0 ≤ y) (hy2 : y < terrainHeight) :
    getFailSafeAt indices x y = some (failSafeSpec indices x y) := by
  have hw : terrainWidth = 320 := by decide
  have hh : terrainHeight = 200 := by decide
  rw [hw] at hx2
  rw [hh] at hy2
  have hdir : getTerrainAt indices x y = some (terrainPix indices x y) := by
    apply getTerrainAt_eq <;>
      · simp only [rawIndex, pixelCount, terrainWidth, terrainHeight]
        omega
  unfold getFailSafeAt failSafeSpec searchOrder
  rw [hdir, Option.some_bind]
  by_cases hsea : terrainPix indices x y ≠ SEA
  · rw [if_pos hsea]
    rw [List.find?_cons_of_pos _ (by simpa using hsea)]
  · rw [if_neg hsea]
    rw [List.find?_cons_of_neg _ (by simpa using hsea)]
    apply failSafeLoop_eq indices x y hx1 hx2 hy1 hy2
    intro d hdmem
    unfold failSafeDists at hdmem
    obtain ⟨n, hn, rfl⟩ := List.mem_map.mp hdmem
    rw [List.mem_range'_1] at hn
    have h1 : 1 ≤ n := hn.1
    have h2 : n ≤ 199 := by omega
    rw [Int.ofNat_eq_coe]
    exact ⟨by exact_mod_cast h1, by exact_mod_cast h2⟩

/-- Witness for C6: in the scenario grid the requested coordinate
(100, 100) and its four radius-1 neighbors are sea, the radius-2 pixel
directly above is mountain, and getFailSafeAt returns the mountain
pixel. -/
theorem c6_getFailSafeAt_witness :
    (0 : Int) ≤ 100 ∧ (100 : Int) < terrainWidth ∧
    (0 : Int) ≤ 100 ∧ (100 : Int) < terrainHeight ∧
    terrainPix scenarioIndices 100 100 = SEA ∧
    terrainPix scenarioIndices 100 101 = SEA ∧
    terrainPix scenarioIndices 100 99 = SEA ∧
    terrainPix scenarioIndices 101 100 = SEA ∧
    terrainPix scenarioIndices 99 100 = SEA ∧
    terrainPix scenarioIndices 100 98 = MOUNTAIN1 ∧
    getFailSafeAt scenarioIndices 100 100 = some MOUNTAIN1 := by
  refine ⟨by decide, by decide, by decide, by decide,
    by decide, by decide, by decide, by decide, by decide, by decide, ?_⟩
  rw [c6_getFailSafeAt scenarioIndices 100 100 (by decide) (by decide) (by decide) (by decide)]
  decide

/-- C7: the allowed-armor set of a class is determined by its coded armor
value: code 0 yields Leather, Chain and Plate; code 1 yields Leather and
Chain; code 2 yields Leather only; code 3 yields the empty set; and any
other code raises a fatal format violation. -/
theorem c7_allowedArmors :
    allowedArmors 0 = some [ArmorMaterialType.Leather, ArmorMaterialType.Chain, ArmorMaterialType.Plate] ∧
    allowedArmors 1 = some [ArmorMaterialType.Leather, ArmorMaterialType.Chain] ∧
    allowedArmors 2 = some [ArmorMaterialType.Leather] ∧
    allowedArmors 3 = some [] ∧
    ∀ v : Nat, 3 < v → allowedArmors v = none := by
  refine ⟨rfl, rfl, rfl, rfl, ?_⟩
  intro v hv
  unfold allowedArmors
  have h0 : v ≠ 0 := by omega
  have h1 : v ≠ 1 := by omega
  have h2 : v ≠ 2 := by omega
  have h3 : v ≠ 3 := by omega
  simp [h0, h1, h2, h3]

/-- Witness for C7 at the concrete out-of-range code 4. -/
theorem c7_allowedArmors_witness : 3 < 4 ∧ allowedArmors 4 = none :=
  ⟨by decide, c7_allowedArmors.2.2.2.2 4 (by decide)⟩

/-- C9: for every class whose lockpicking divisor `d` is nonzero, the
computed lockpicking multiplier equals `floor (200 / d) / 100` exactly
(real division under the floor, integer result divided by 100). -/
theorem c9_lockpicking (d : Nat) (hd : d ≠ 0) :
    lockpickingMultiplier d = some ((⌊(200 : ℚ) / (d : ℚ)⌋ : ℚ) / 100) := by
  unfold lockpickingMultiplier
  rw [if_neg hd]
  have hnonneg : (0 : ℚ) ≤ (200 : ℚ) / (d : ℚ) := by positivity
  have h1 : ⌊(200 : ℚ) / (d : ℚ)⌋₊ = 200 / d := by
    have := Nat.floor_div_eq_div (α := ℚ) 200 d
    simpa using this
  have h2 : ((⌊(200 : ℚ) / (d : ℚ)⌋₊ : ℤ)) = ⌊(200 : ℚ) / (d : ℚ)⌋ :=
    Int.natCast_floor_eq_floor hnonneg
  have h3 : ((⌊(200 : ℚ) / (d : ℚ)⌋ : ℚ)) = ((200 / d : ℕ) : ℚ) := by
    rw [← h2, h1]
    exact Int.cast_natCast _
  rw [h3]

/-- Witness for C9 at the example divisor 4, whose multiplier is 1/2. -/
theorem c9_lockpicking_witness :
    (4 : Nat) ≠ 0 ∧
    lockpickingMultiplier 4 = some ((⌊(200 : ℚ) / ((4 : Nat) : ℚ)⌋ : ℚ) / 100) ∧
    lockpickingMultiplier 4 = some (1 / 2) :=
  ⟨by decide, c9_lockpicking 4 (by decide), by norm_num [lockpickingMultiplier]⟩

/-- C2 counterexample: a chance-gated rule whose threshold draw fails
consumes only one draw, not the two (chunk-index draw plus threshold draw)
that the claim asserts: with one chunk group, a constant generator value
99 and the single rule indexChance 0 50, the run ends with cursor 1 while
the claim predicts 0 + 2 draws. -/
theorem c2_counterexample :
    runRules [["A"]] (fun _ => 99) [NameRule.indexChance 0 50] 0 = some ("", 1) ∧
    claimedDrawCount [NameRule.indexChance 0 50] = 2 ∧
    (1 : Nat) ≠ 0 + 2 :=
  ⟨rfl, rfl, by decide⟩

/-- C2 amended: a successful evaluation of the rule loop consumes one draw
per plain reference and, for each chance-gated rule, one threshold draw
plus one further chunk-index draw only when the threshold draw succeeds
(value mod 100 at most the chance); the sampled chunk string is appended
if and only if the threshold draw succeeds; and generateNpcName consumes
exactly that many draws for its race/gender rule list. -/
theorem c2_generateNpcName_draws :
    (∀ (chunks : List (List String)) (rng : Nat → Nat) (rules : List NameRule)
       (k : Nat) (s : String) (kf : Nat),
       runRules chunks rng rules k = some (s, kf) →
       kf = k + actualDrawCount rng rules k) ∧
    (∀ (chunks : List (List String)) (rng : Nat → Nat) (i c : Nat)
       (rest : List NameRule) (k : Nat) (s : String) (kf : Nat),
       runRules chunks rng (NameRule.indexChance i c :: rest) k = some (s, kf) →
       if rng k % 100 ≤ c then
         ∃ cl piece t, chunks[i]? = some cl ∧
           cl[rng (k + 1) % cl.length]? = some piece ∧
           runRules chunks rng rest (k + 2) = some (t, kf) ∧ s = piece ++ t
       else
         ∃ t, runRules chunks rng rest (k + 1) = some (t, kf) ∧ s = t) ∧
    (∀ (chunks : List (List String)) (rng : Nat → Nat) (raceID : Nat) (isMale : Bool)
       (s : String) (kf : Nat),
       generateNpcName chunks raceID isMale rng = some (s, kf) →
       ∃ rules, NameRules[raceID * 2 + (if isMale then 0 else 1)]? = some rules ∧
         kf = actualDrawCount rng rules 0) := by
  refine ⟨fun chunks rng => runRules_drawCount chunks rng, ?_, ?_⟩
  · intro chunks rng i c rest k s kf h
    simp only [runRules] at h
    rw [Option.bind_eq_some] at h
    obtain ⟨cl, hcl, h⟩ := h
    by_cases hgate : rng k % 100 ≤ c
    · rw [if_pos hgate] at h
      rw [if_pos hgate]
      simp only [Option.bind_eq_some, Option.map_eq_some'] at h
      obtain ⟨piece, hpiece, p, hrun, hp⟩ := h
      rw [Prod.mk.injEq] at hp
      obtain ⟨hs, hkf⟩ := hp
      refine ⟨cl, piece, p.1, hcl, hpiece, ?_, hs.symm⟩
      rw [← hkf]
      exact hrun
    · rw [if_neg hgate] at h
      rw [if_neg hgate]
      exact ⟨s, h, rfl⟩
  · intro chunks rng raceID isMale s kf h
    unfold generateNpcName at h
    rw [Option.bind_eq_some] at h
    obtain ⟨rules, hrules, hrun⟩ := h
    refine ⟨rules, hrules, ?_⟩
    have := runRules_drawCount chunks rng rules 0 s kf hrun
    omega

/-- Witness for C2: a plain reference consumes one draw; a failed
chance gate takes the else branch of the characterization. -/
theorem c2_generateNpcName_draws_witness :
    runRules [["A"]] (fun _ => 0) [NameRule.index 0] 0 = some ("A", 1) ∧
    (1 : Nat) = 0 + actualDrawCount (fun _ => 0) [NameRule.index 0] 0 ∧
    (if (fun _ => (99 : Nat)) 0 % 100 ≤ 50 then
       ∃ cl piece t, ([["A"]] : List (List String))[0]? = some cl ∧
         cl[(fun _ => (99 : Nat)) (0 + 1) % cl.length]? = some piece ∧
         runRules [["A"]] (fun _ => 99) [] (0 + 2) = some (t, 1) ∧ "" = piece ++ t
     else
       ∃ t, runRules [["A"]] (fun _ => 99) [] (0 + 1) = some (t, 1) ∧ "" = t) :=
  ⟨by rfl,
   c2_generateNpcName_draws.1 [["A"]] (fun _ => 0) [NameRule.index 0] 0 "A" 1 (by rfl),
   c2_generateNpcName_draws.2.1 [["A"]] (fun _ => 99) 0 50 [] 0 "" 1 (by rfl)⟩

/-- C3 counterexample: the name-chunk decoding loop does not terminate on
every input buffer; on the buffer of three zero bytes the record header
declares length 0, the cursor stays at offset 0 and the loop never stops. -/
theorem c3_counterexample : ¬ NameChunksTerminates [0, 0, 0] := by
  rintro ⟨fuel, h⟩
  rw [nameChunks_zero_header_stuck fuel []] at h
  simp at h

/-- C3 amended: the name-chunk decoding loop terminates provided every
record header it can read declares a positive length (here: the 16-bit
little-endian value at every offset inside the buffer is positive); the
cursor then strictly advances each iteration and reaches the buffer end
within `buf.length` iterations. -/
theorem c3_nameChunks_termination (buf : List Nat)
    (hpos : ∀ o, o < buf.length → 0 < leU16 buf o) :
    NameChunksTerminates buf ∧ (parseNameChunks buf).isSome :=
  ⟨⟨buf.length, parseNameChunksAux_total buf hpos buf.length 0 [] (by omega)⟩,
   parseNameChunksAux_total buf hpos buf.length 0 [] (by omega)⟩

/-- Witness for C3 on the concrete buffer of a single record of declared
length 4 holding one unterminated string. -/
theorem c3_nameChunks_termination_witness :
    (∀ o, o < ([4, 0, 1, 7] : List Nat).length → 0 < leU16 [4, 0, 1, 7] o) ∧
    NameChunksTerminates [4, 0, 1, 7] ∧ (parseNameChunks [4, 0, 1, 7]).isSome :=
  ⟨by decide, c3_nameChunks_termination [4, 0, 1, 7] (by decide)⟩

/-- C5: each iteration of name-chunk decoding places the cursor exactly
the header's declared length past the record start, independent of the
byte length of the strings read; in particular the demonstration buffer
with header (length 10, count 2) is decoded as exactly one record of the
two strings, the cursor jumping to offset 10 over the padding. -/
theorem c5_nameChunks_cursor :
    (∀ (buf : List Nat) (fuel offset : Nat) (acc : List (List (List Nat))),
      offset < buf.length →
      parseNameChunksAux buf (fuel + 1) offset acc =
        parseNameChunksAux buf fuel (offset + leU16 buf offset)
          (acc ++ [readNameRecord buf offset])) ∧
    parseNameChunks nameChunkDemoBuf = some [[[65], [66]]] := by
  constructor
  · intro buf fuel offset acc h
    simp only [parseNameChunksAux, if_pos h]
  · rfl

/-- Witness for C5: the step equation applied at offset 0 of the
demonstration buffer, whose declared record length is 10. -/
theorem c5_nameChunks_cursor_witness :
    0 < nameChunkDemoBuf.length ∧
    parseNameChunksAux nameChunkDemoBuf 1 0 [] =
      parseNameChunksAux nameChunkDemoBuf 0 (0 + leU16 nameChunkDemoBuf 0)
        ([] ++ [readNameRecord nameChunkDemoBuf 0]) :=
  ⟨by decide, c5_nameChunks_cursor.1 nameChunkDemoBuf 0 0 [] (by decide)⟩

/-- C10: in the quiz-question category derivation, for every choice string
not containing the substring "(5", the examined tag character is the one at
index 1 of the choice (npos + 2 wraps around to 1), so the choice is
classified, or rejected as a bad category, purely on that character; and a
choice shorter than 2 characters makes the index access itself fail. -/
theorem c10_getCategory_no_marker (choice : List Char)
    (h : ¬ ∃ i, i < choice.length ∧ (choice.drop i).take 2 = ['(', '5']) :
    getCategory choice = categoryOfChar choice[1]? ∧
    (choice.length < 2 → getCategory choice = Except.error QuestionTxtError.outOfRange) := by
  have hfind : strFind choice ['(', '5'] = npos := strFind_eq_npos choice _ h
  have hidx : (npos + 2) % 2 ^ 64 = 1 := by decide
  have hmain : getCategory choice = categoryOfChar choice[1]? := by
    unfold getCategory categoryOfChar
    simp only [hfind, hidx]
  refine ⟨hmain, fun hlt => ?_⟩
  rw [hmain]
  have hnone : choice[1]? = none := by
    rw [List.getElem?_eq_none]
    omega
  rw [hnone]
  rfl

/-- Witness for C10: the choice "xlz" has no "(5" marker and is classified
as Mage purely from the character at index 1. -/
theorem c10_getCategory_witness :
    (¬ ∃ i, i < (['x', 'l', 'z'] : List Char).length ∧
      ((['x', 'l', 'z'] : List Char).drop i).take 2 = ['(', '5']) ∧
    getCategory ['x', 'l', 'z'] = categoryOfChar (['x', 'l', 'z'] : List Char)[1]? ∧
    getCategory ['x', 'l', 'z'] = Except.ok CharacterClassCategoryName.Mage := by
  have h : ¬ ∃ i, i < (['x', 'l', 'z'] : List Char).length ∧
      ((['x', 'l', 'z'] : List Char).drop i).take 2 = ['(', '5'] := by
    rintro ⟨i, hi, hocc⟩
    have hi3 : i < 3 := by simpa using hi
    interval_cases i <;> simp_all
  exact ⟨h, (c10_getCategory_no_marker ['x', 'l', 'z'] h).1, by rfl⟩

/-- C1 counterexample: the template and dungeon parsers do not flush the
last in-progress record after the final line: with no trailing delimiter
line, the final record (key "#K" with value "x"; title "T" with
description "d") does not appear in the output, which is empty. -/
theorem c1_counterexample :
    parseTemplateDat [['#', 'K'], ['x']] = some [] ∧
    parseDungeonTxt [['T'], ['d']] = some [] :=
  ⟨rfl, rfl⟩

/-- C1 amended: only the quiz-question parser flushes the last in-progress
record after the final line: every successful parse ends with one final
question built from the state left by the last line, appended as the last
element of the output; the template and dungeon parsers instead record a
pair only at a delimiter line, dropping a final record that is not
followed by one. -/
theorem c1_quiz_final_flush :
    ∀ (lines : List (List Char)) (qs : List CharacterQuestion),
      parseQuestionTxt lines = some qs →
      ∃ st q, quizFold lines initQuizState = some st ∧
        mkQuestion st.d st.a st.b st.c = some q ∧
        qs = st.questions ++ [q] ∧ qs.getLast? = some q := by
  intro lines qs h
  unfold parseQuestionTxt at h
  split at h
  · simp at h
  · rename_i st hst
    split at h
    · simp at h
    · rename_i q hq
      have hqs := Option.some.inj h
      refine ⟨st, q, hst, hq, hqs.symm, ?_⟩
      rw [← hqs]
      exact List.getLast?_concat _

/-- Witness for C1: the one-question demonstration input, whose final
lines are flushed into the single output question after the loop. -/
theorem c1_quiz_final_flush_witness :
    parseQuestionTxt quizDemoLines = some [quizDemoQuestion] ∧
    ∃ st q, quizFold quizDemoLines initQuizState = some st ∧
      mkQuestion st.d st.a st.b st.c = some q ∧
      [quizDemoQuestion] = st.questions ++ [q] ∧
      ([quizDemoQuestion] : List CharacterQuestion).getLast? = some q :=
  ⟨by rfl, c1_quiz_final_flush quizDemoLines [quizDemoQuestion] (by rfl)⟩

/-- C4 counterexample: a template value whose raw text ends in two
ampersands keeps one of them: only a single trailing ampersand is
stripped, so the stored value for key "#K" ends with the character '&'. -/
theorem c4_counterexample :
    parseTemplateDat [['#', 'K'], ['&', '&'], ['#', 'Z']] =
      some [(['#', 'K'], ['&'])] ∧
    (['&'] : List Char).getLast? = some '&' :=
  ⟨rfl, rfl⟩

/-- C4 amended: every value stored by the template parser is the image of
the cleanup (carriage returns to line feeds, all trailing line feeds
stripped, then one trailing ampersand stripped); consequently a stored
value ends with a line feed only when the newline-stripped text ended in a
line feed hidden behind the stripped ampersand, and ends with an ampersand
only when the newline-stripped text ended in two ampersands. -/
theorem c4_template_value_endings (lines : List (List Char))
    (table : List (List Char × List Char)) (k v : List Char)
    (hp : parseTemplateDat lines = some table) (hmem : (k, v) ∈ table) :
    ∃ raw, v = cleanValue raw ∧
      (v.getLast? = some '\n' →
        ['\n', '&'] <:+ stripTrailingNewlines (replaceChar raw '\r' '\n')) ∧
      (v.getLast? = some '&' →
        ['&', '&'] <:+ stripTrailingNewlines (replaceChar raw '\r' '\n')) := by
  unfold parseTemplateDat at hp
  rw [Option.map_eq_some'] at hp
  obtain ⟨st, hfold, htab⟩ := hp
  subst htab
  have hmem2 : (k, v) ∈ st.table := (List.mem_filter.mp hmem).1
  have hinv := templateFold_values lines ⟨[], [], []⟩ st hfold
    (by intro kv hkv; simp at hkv) (k, v) hmem2
  obtain ⟨raw, hraw⟩ := hinv
  refine ⟨raw, hraw, ?_, ?_⟩
  · intro hnl
    apply (cleanValue_last_cases raw).1
    rw [← hraw]
    exact hnl
  · intro hnl
    apply (cleanValue_last_cases raw).2
    rw [← hraw]
    exact hnl

/-- Witness for C4 at a two-line record whose stored value is "ab". -/
theorem c4_template_value_endings_witness :
    parseTemplateDat [['#', 'K'], ['a', 'b'], ['#', 'Z']] =
      some [(['#', 'K'], ['a', 'b'])] ∧
    ∃ raw, (['a', 'b'] : List Char) = cleanValue raw ∧
      ((['a', 'b'] : List Char).getLast? = some '\n' →
        ['\n', '&'] <:+ stripTrailingNewlines (replaceChar raw '\r' '\n')) ∧
      ((['a', 'b'] : List Char).getLast? = some '&' →
        ['&', '&'] <:+ stripTrailingNewlines (replaceChar raw '\r' '\n')) :=
  ⟨rfl,
   c4_template_value_endings [['#', 'K'], ['a', 'b'], ['#', 'Z']]
     [(['#', 'K'], ['a', 'b'])] ['#', 'K'] ['a', 'b'] rfl (by simp)⟩

/-- C8 counterexample: a '#' line that carries no index at all does not
cause a fatal format error; it silently stops parsing, here yielding the
empty table. -/
theorem c8_counterexample :
    parseSpellMakerDescriptions [['#']] = some [] :=
  rfl

/-- C8 amended: a block index outside 0..42 causes the fatal error at
flush time, that is, when a subsequent '#' line arrives (so an input
beginning with block "#99" followed by another '#' line always fails,
whatever comes after), while a '#' line carrying no index silently stops
parsing, returning the table collected so far without error. -/
theorem c8_spellMaker_errors :
    (∀ (line : List Char) (rest : List (List Char)) (i : Nat) (s : List Char)
       (acc : List (Nat × List Char)),
       line.head? = some '#' → 42 < i →
       spellMakerLoop (line :: rest) (some (i, s)) acc = none) ∧
    (∀ rest : List (List Char),
       parseSpellMakerDescriptions (['#', '9', '9'] :: ['#', '0', '0'] :: rest) = none) ∧
    (∀ (rest : List (List Char)) (acc : List (Nat × List Char)),
       spellMakerLoop (['#'] :: rest) none acc = some acc) := by
  refine ⟨?_, ?_, ?_⟩
  · intro line rest i s acc hhead hi
    cases line with
    | nil => simp at hhead
    | cons c tl =>
      have hc : c = '#' := by simpa using hhead
      subst hc
      have h43 : ¬ i < 43 := by omega
      have hflush : smFlush (some (i, s)) acc = none := by
        simp only [smFlush]
        rw [if_neg h43]
      simp [spellMakerLoop, hflush]
  · intro rest
    rfl
  · intro rest acc
    rfl

/-- Witness for C8: flushing an in-progress block with index 43 at the
arrival of the next '#' line throws. -/
theorem c8_spellMaker_errors_witness :
    (['#', '0', '0'] : List Char).head? = some '#' ∧ 42 < 43 ∧
    spellMakerLoop [['#', '0', '0']] (some (43, [])) [] = none ∧
    parseSpellMakerDescriptions [['#', '9', '9'], ['#', '0', '0']] = none :=
  ⟨rfl, by decide,
   c8_spellMaker_errors.1 ['#', '0', '0'] [] 43 [] [] rfl (by decide),
   c8_spellMaker_errors.2.1 []⟩

end Claims
